import Mathlib

/-!
Verification of the provider registry and dispatch subsystem of the
`product-reviews` plugin system (shallow embedding of
`src/product_reviews/models.py`, `providers/base.py`, `providers/registry.py`,
`providers/loaders.py` and `reviews.py`).

Python values are dynamically typed; fields of the `Review` dataclass can hold
arbitrary objects.  We embed the universe of values that appear in the code
(`None`, strings, numbers, `datetime` objects, lists) as the inductive `PyVal`.
Python `float` ratings are modelled as rationals: the code never performs
arithmetic on them, only truthiness tests and equality.
-/

/-- The `datetime.datetime` value (naive), by its seven components.
Python compares datetimes lexicographically by these components. -/
structure Datetime where
  year : Nat
  month : Nat
  day : Nat
  hour : Nat
  minute : Nat
  second : Nat
  microsecond : Nat
deriving DecidableEq

/-- Validity bounds enforced by the `datetime.datetime` constructor
(`MINYEAR = 1`, `MAXYEAR = 9999`, calendar field ranges). -/
def Datetime.valid (d : Datetime) : Prop :=
  1 ≤ d.year ∧ d.year ≤ 9999 ∧ 1 ≤ d.month ∧ d.month ≤ 12 ∧
  1 ≤ d.day ∧ d.day ≤ 31 ∧ d.hour ≤ 23 ∧ d.minute ≤ 59 ∧
  d.second ≤ 59 ∧ d.microsecond ≤ 999999

instance (d : Datetime) : Decidable d.valid := by
  unfold Datetime.valid; infer_instance

/-- Universe of dynamically typed Python values stored in review fields. -/
inductive PyVal where
  | none
  | str (s : String)
  | num (q : ℚ)
  | dtv (d : Datetime)
  | listv (l : List PyVal)

/-- Python truthiness (`bool(v)`) for the values of `PyVal`:
`None`, `""`, `0` and `[]` are falsy; a `datetime` is always truthy. -/
def truthy : PyVal → Bool
  | PyVal.none => false
  | PyVal.str s => decide (s ≠ "")
  | PyVal.num q => decide (q ≠ 0)
  | PyVal.dtv _ => true
  | PyVal.listv l => !l.isEmpty

/-- Test `isinstance(v, str)`. -/
def isStr : PyVal → Bool
  | PyVal.str _ => true
  | _ => false

/-- The `Review` dataclass of `models.py`.  Python does not enforce the
type annotations at runtime, so every field holds an arbitrary `PyVal`;
the optional fields default to `None` exactly as in the dataclass. -/
structure Review where
  rating : PyVal
  created_at : PyVal
  text : PyVal := PyVal.none
  pros : PyVal := PyVal.none
  cons : PyVal := PyVal.none
  summary : PyVal := PyVal.none

/-- The `ProviderReviewList` dataclass of `models.py`. -/
structure ProviderReviewList where
  provider : String
  reviews : List Review

/-- Embeds `ProviderReviewList.count`. -/
def ProviderReviewList.count (l : ProviderReviewList) : Nat :=
  l.reviews.length

/-- The `HealthCheckResult` dataclass of `models.py`, with its defaults. -/
structure HealthCheckResult where
  is_healthy : Bool
  message : String
  url : String := ""
  reviews_count : Nat := 0
deriving DecidableEq

/-!
ISO-8601 serialization.  `Review.to_representation` stores
`created_at.isoformat()` and `Review.from_representation` re-parses it with
`datetime.fromisoformat`.  We embed the character-level encoding: decimal
printing with zero padding and fixed-position parsing of the grammar
`YYYY-MM-DDTHH:MM:SS[.ffffff]` that `isoformat()` emits (microseconds are
omitted exactly when they are zero, `timespec='auto'`).
-/

/-- One decimal digit as a character. -/
def digitToChar : Nat → Char
  | 0 => '0'
  | 1 => '1'
  | 2 => '2'
  | 3 => '3'
  | 4 => '4'
  | 5 => '5'
  | 6 => '6'
  | 7 => '7'
  | 8 => '8'
  | 9 => '9'
  | _ => '*'

/-- Value of a decimal digit character. -/
def charToDigit : Char → Nat
  | '0' => 0
  | '1' => 1
  | '2' => 2
  | '3' => 3
  | '4' => 4
  | '5' => 5
  | '6' => 6
  | '7' => 7
  | '8' => 8
  | '9' => 9
  | _ => 0

/-- The number `n` printed in decimal, zero-padded on the left to (at least) width `k`. -/
def padNum (k n : Nat) : List Char :=
  ((Nat.digits 10 n ++ List.replicate (k - (Nat.digits 10 n).length) 0).map
    digitToChar).reverse

/-- Decimal value of a big-endian digit-character list. -/
def readNum (cs : List Char) : Nat :=
  Nat.ofDigits 10 ((cs.map charToDigit).reverse)

/-- Embeds `datetime.isoformat()` for a naive datetime. -/
def isoformat (d : Datetime) : String :=
  ⟨padNum 4 d.year ++ '-' :: padNum 2 d.month ++ '-' :: padNum 2 d.day ++
    'T' :: padNum 2 d.hour ++ ':' :: padNum 2 d.minute ++
    ':' :: padNum 2 d.second ++
    (if d.microsecond = 0 then [] else '.' :: padNum 6 d.microsecond)⟩

/-- Embeds `datetime.fromisoformat` restricted to the grammar that `isoformat`
produces (the repository only ever re-parses its own serializations);
any other shape is a `ValueError`. -/
def parseIsoChars (cs : List Char) : Except String Datetime :=
  match cs with
  | y1 :: y2 :: y3 :: y4 :: sa :: m1 :: m2 :: sb :: d1 :: d2 :: sc ::
      h1 :: h2 :: sd :: n1 :: n2 :: se :: x1 :: x2 :: rest =>
    if sa = '-' ∧ sb = '-' ∧ sc = 'T' ∧ sd = ':' ∧ se = ':' ∧
        ([y1, y2, y3, y4, m1, m2, d1, d2, h1, h2, n1, n2, x1, x2].all
          Char.isDigit) = true then
      match rest with
      | [] =>
        Except.ok
          ⟨readNum [y1, y2, y3, y4], readNum [m1, m2], readNum [d1, d2],
            readNum [h1, h2], readNum [n1, n2], readNum [x1, x2], 0⟩
      | sf :: u1 :: u2 :: u3 :: u4 :: u5 :: u6 :: [] =>
        if sf = '.' ∧ ([u1, u2, u3, u4, u5, u6].all Char.isDigit) = true then
          Except.ok
            ⟨readNum [y1, y2, y3, y4], readNum [m1, m2], readNum [d1, d2],
              readNum [h1, h2], readNum [n1, n2], readNum [x1, x2],
              readNum [u1, u2, u3, u4, u5, u6]⟩
        else Except.error "Invalid isoformat string"
      | _ => Except.error "Invalid isoformat string"
    else Except.error "Invalid isoformat string"
  | _ => Except.error "Invalid isoformat string"

/-- Embeds `datetime.fromisoformat` applied to an arbitrary Python value: a
non-string argument raises `TypeError`. -/
def fromisoformatVal : PyVal → Except String Datetime
  | PyVal.str s => parseIsoChars s.data
  | _ => Except.error "TypeError: fromisoformat: argument must be str"

/-- Embeds `Review.to_representation`: `asdict` of the review with `created_at`
replaced by its `isoformat()` string.  Calling `.isoformat()` on a
non-datetime raises `AttributeError`, modelled as the error case. -/
def Review.to_representation (r : Review) : Except String Review :=
  match r.created_at with
  | PyVal.dtv d => Except.ok { r with created_at := PyVal.str (isoformat d) }
  | _ => Except.error "AttributeError"

/-- Embeds `Review.from_representation(r)`: first executes
`r["created_at"] = datetime.fromisoformat(r["created_at"])`, mutating the
caller's dict, then builds `Review(**r)`.  The returned pair is
(the dict after the call, the outcome); when `fromisoformat` raises, the
assignment does not happen and the dict is unchanged. -/
def Review.from_representation (r : Review) : Review × Except String Review :=
  match fromisoformatVal r.created_at with
  | Except.error e => (r, Except.error e)
  | Except.ok d =>
    let r' := { r with created_at := PyVal.dtv d }
    (r', Except.ok r')

/-!
Providers.  A provider class of `providers/base.py` is a name, a URL
predicate (`check_url`, which matches the URL against the class's
`url_regex` patterns — the regex engine itself is stdlib and is abstracted
as the predicate the patterns denote), a fetch operation (`get_reviews`,
which may raise: `requests.HTTPError` or any other exception, embedded as
the `Except` error channel) and the class-level `test_urls` list.
-/

/-- An exception escaping `provider.get_reviews`: either a
`requests.HTTPError` or any other exception, with its `str(e)` message. -/
inductive FetchErr where
  | httpError (msg : String)
  | otherError (msg : String)

/-- The `str(e)` of a fetch exception. -/
def FetchErr.str : FetchErr → String
  | FetchErr.httpError m => m
  | FetchErr.otherError m => m

/-- A provider class (see `BaseReviewsProvider` in `providers/base.py`). -/
structure Provider where
  name : String
  check_url : String → Bool
  get_reviews : String → Except FetchErr (List Review)
  test_urls : List String := []

/-!
The registry's provider mapping is a Python `dict[str, type]`.  A `dict`
preserves insertion order; assigning to an existing key updates the value
in place without moving the key.  We embed it as an association list with
exactly these semantics.
-/

/-- The registry's name-keyed provider mapping (`dict` with insertion
order). -/
abbrev ProvMap := List (String × Provider)

/-- Assignment `d[k] = v` on a Python dict: update in place if the key exists
(keeping its position), otherwise append the new binding. -/
def dictInsert (m : ProvMap) (k : String) (v : Provider) : ProvMap :=
  if m.any (fun e => e.1 == k) then
    m.map (fun e => if e.1 == k then (k, v) else e)
  else m ++ [(k, v)]

/-- Lookup `d[k]` (first — and only — binding of the key). -/
def dictLookup (m : ProvMap) (k : String) : Option Provider :=
  (m.find? (fun e => e.1 == k)).map Prod.snd

/-- Iteration `d.values()` in insertion order. -/
def dictValues (m : ProvMap) : List Provider :=
  m.map Prod.snd

/-- Embeds `load_all_providers_map` of `providers/loaders.py`: iterate all
entry-point providers, then all filesystem providers
(`chain(load_entry_point_providers(), load_fs_providers(...))`), inserting
each into the name-keyed dict.  The two loader outputs are impure
(entry-point enumeration, filesystem scan) and enter the model as the two
lists `ep` and `fs` they yield. -/
def loadAllProvidersMap (ep fs : List Provider) : ProvMap :=
  (ep ++ fs).foldl (fun m p => dictInsert m p.name p) []

/-- Python's `sorted(..., key=lambda x: x.name)` comparison for
`Registry.list_providers`. -/
def providerNameRel (a b : Provider) : Prop := a.name ≤ b.name

instance : DecidableRel providerNameRel := fun a b =>
  inferInstanceAs (Decidable (a.name ≤ b.name))

instance : IsTotal Provider providerNameRel :=
  ⟨fun a b => le_total a.name b.name⟩

instance : IsTrans Provider providerNameRel :=
  ⟨fun _ _ _ h1 h2 => le_trans h1 h2⟩

/-- Embeds `Registry.list_providers`: the cached mapping's values sorted by
`name`.  Python's `sorted` is a stable sort; `List.insertionSort` is the
same stable sort (for any total preorder the stable sorted result is
unique). -/
def listProviders (m : ProvMap) : List Provider :=
  List.insertionSort providerNameRel (dictValues m)

/-- The scan loop of `Registry.get_provider_for_url`:
`for provider_class in values: if provider_class.check_url(url): return`. -/
def registryScan (url : String) : List Provider → Except String Provider
  | [] => Except.error ("No provider found for URL: " ++ url)
  | p :: ps =>
    if p.check_url url then Except.ok p else registryScan url ps

/-- Embeds `Registry.get_provider_for_url`: scan the cached mapping's values in
insertion order; raise `ProviderLoadError` (message carrying the URL) when
none matches. -/
def registryGetProviderForUrl (m : ProvMap) (url : String) :
    Except String Provider :=
  registryScan url (dictValues m)

/-- Embeds `ProductReviewsService.get_provider_for_url`: delegates to the
registry's lookup and converts any exception into `None`
(`try: ... except Exception: return None`). -/
def serviceGetProviderForUrl (m : ProvMap) (url : String) : Option Provider :=
  match registryGetProviderForUrl m url with
  | Except.ok p => some p
  | Except.error _ => Option.none

/-- The loop of `_check_matched_provider` in `reviews.py`:
`for cls in registry.list_providers(): if cls.check_url(url): return cls`
(falls through to `None`). -/
def matchScan (url : String) : List Provider → Option Provider
  | [] => Option.none
  | p :: ps => if p.check_url url then some p else matchScan url ps

/-- Embeds `_check_matched_provider(url, registry)` in `reviews.py`: note it scans
`registry.list_providers()` — the name-sorted list — not the mapping in
insertion order. -/
def checkMatchedProvider (m : ProvMap) (url : String) : Option Provider :=
  matchScan url (listProviders m)

/-!
Sorting reviews.  `_parse_reviews` runs
`reviews.sort(key=lambda x: x.created_at, reverse=True)` — Python's stable
sort, descending by the datetime key.  Python compares datetimes
lexicographically by their components; comparing a datetime with a
non-datetime raises `TypeError`, so the sort is only defined on lists whose
`created_at` are all datetimes (the claims' hypothesis).  To obtain a total
order on the embedded values we rank non-datetimes below every datetime;
this extension is never exercised under that hypothesis. -/

/-- The lexicographic comparison key of a datetime: its component tuple
under the lexicographic order. -/
def Datetime.lexKey (d : Datetime) : ℕ ×ₗ ℕ ×ₗ ℕ ×ₗ ℕ ×ₗ ℕ ×ₗ ℕ ×ₗ ℕ :=
  toLex (d.year, toLex (d.month, toLex (d.day, toLex (d.hour,
    toLex (d.minute, toLex (d.second, d.microsecond))))))

/-- The sort key of a review: its `created_at` as a datetime, with
non-datetime values ranked at the bottom (see module comment above). -/
def createdKey (r : Review) : WithBot (ℕ ×ₗ ℕ ×ₗ ℕ ×ₗ ℕ ×ₗ ℕ ×ₗ ℕ ×ₗ ℕ) :=
  match r.created_at with
  | PyVal.dtv d => (d.lexKey : WithBot _)
  | _ => ⊥

/-- Relation holding when `a` precedes `b` in the descending `created_at` order
(`reverse=True`). -/
def reviewDescRel (a b : Review) : Prop := createdKey b ≤ createdKey a

instance : DecidableRel reviewDescRel := fun a b =>
  inferInstanceAs (Decidable (createdKey b ≤ createdKey a))

instance : IsTotal Review reviewDescRel :=
  ⟨fun a b => le_total (createdKey b) (createdKey a)⟩

instance : IsTrans Review reviewDescRel :=
  ⟨fun _ _ _ h1 h2 => le_trans h2 h1⟩

/-- Embeds `reviews.sort(key=lambda x: x.created_at, reverse=True)`: Python's
stable sort; `List.insertionSort` is extensionally the same stable sort. -/
def sortReviewsDesc (l : List Review) : List Review :=
  List.insertionSort reviewDescRel l

/-- Test of `r.created_at` being exactly the datetime `d` (used to state
stability: ties on the sort key keep fetch order). -/
def createdEq (r : Review) (d : Datetime) : Bool :=
  match r.created_at with
  | PyVal.dtv d' => decide (d' = d)
  | _ => false

/-- The error channel of `_parse_reviews`. -/
inductive ParseError where
  | noMatched (msg : String)
  | reviewsParse
  | uncaught (msg : String)

/-- Embeds `_parse_reviews(url, registry)` in `reviews.py`: resolve the provider
via `_check_matched_provider` (which scans `list_providers()`); raise
`NoMatchedProvidersException` carrying the URL if none; else fetch, sort
descending by `created_at`, and wrap with the provider's declared name.
Only `requests.HTTPError` is converted to `ReviewsParseException`; other
exceptions propagate. -/
def parseReviews (m : ProvMap) (url : String) :
    Except ParseError ProviderReviewList :=
  match checkMatchedProvider m url with
  | Option.none =>
    Except.error
      (ParseError.noMatched ("No matched providers for \"" ++ url ++ "\""))
  | some provider =>
    match provider.get_reviews url with
    | Except.error (FetchErr.httpError _) => Except.error ParseError.reviewsParse
    | Except.error (FetchErr.otherError e) =>
      Except.error (ParseError.uncaught e)
    | Except.ok reviews =>
      Except.ok ⟨provider.name, sortReviewsDesc reviews⟩

/-!
Registry caching (`registry.py`).  A `Registry` instance holds
`_providers : dict | None`; `_load_providers` populates it on first use and
`clear_cache` resets it to `None`.  The merged loader output is
deterministic for a fixed environment and enters the model as the
parameter `env`; the `Nat` component counts how many times the call ran
the loader merge (`load_all_providers_map`), which is what claim C4's
"loader call count" observes. -/

/-- The mutable state of a `Registry` instance: the `_providers` cache. -/
structure RegistryState where
  _providers : Option ProvMap

/-- Embeds `Registry._load_providers`, with loader-merge call counting. -/
def loadProvidersCounted (env : ProvMap) (s : RegistryState) :
    ProvMap × RegistryState × Nat :=
  match s._providers with
  | some m => (m, s, 0)
  | Option.none => (env, ⟨some env⟩, 1)

/-- Embeds `Registry.list_providers` as a state transition. -/
def listProvidersSt (env : ProvMap) (s : RegistryState) :
    List Provider × RegistryState × Nat :=
  match loadProvidersCounted env s with
  | (m, s', c) => (List.insertionSort providerNameRel (dictValues m), s', c)

/-- Embeds `Registry.clear_cache`: sets `_providers = None`. -/
def clearCache (_ : RegistryState) : RegistryState := ⟨Option.none⟩

/-!
Review validation and health checks (`providers/base.py`).
-/

/-- Embeds `ReviewListValidator.check_review_fields`.  Note the checks use Python
truthiness (`if not review.rating: ...`), not `is None`. -/
def check_review_fields (r : Review) : Except String Unit :=
  if ¬ truthy r.created_at then Except.error "Review created_at is required"
  else if ¬ truthy r.rating then Except.error "Review rating is required"
  else if truthy r.text ∧ ¬ isStr r.text then
    Except.error "Review text must be a string"
  else if truthy r.pros ∧ ¬ isStr r.pros then
    Except.error "Review pros must be a string"
  else if truthy r.cons ∧ ¬ isStr r.cons then
    Except.error "Review cons must be a string"
  else if truthy r.summary ∧ ¬ isStr r.summary then
    Except.error "Review summary must be a string"
  else Except.ok ()

/-- Embeds `ReviewListValidator.check_reviews_count`. -/
def check_reviews_count (rs : List Review) : Except String Unit :=
  if rs.isEmpty then Except.error "No reviews found" else Except.ok ()

/-- The `for review in reviews: validator.check_review_fields(review)` loop:
the first raised `ReviewValidationError` aborts it. -/
def checkAllReviews : List Review → Except String Unit
  | [] => Except.ok ()
  | r :: rs =>
    match check_review_fields r with
    | Except.error e => Except.error e
    | Except.ok _ => checkAllReviews rs

/-- Embeds `_get_health_for_url` in `providers/base.py`. -/
def getHealthForUrl (p : Provider) (url : String) : HealthCheckResult :=
  match p.get_reviews url with
  | Except.error e =>
    ⟨false, "Error fetching reviews: " ++ e.str, url, 0⟩
  | Except.ok reviews =>
    match check_reviews_count reviews with
    | Except.error _ => ⟨false, "No reviews found", url, 0⟩
    | Except.ok _ =>
      match checkAllReviews reviews with
      | Except.error _ => ⟨false, "Review validation failed", url, 0⟩
      | Except.ok _ =>
        ⟨true, "Successfully fetched reviews", url, reviews.length⟩

/-- Embeds `BaseReviewsProvider.check_health`. -/
def check_health (p : Provider) (url : Option String) :
    List HealthCheckResult :=
  match url with
  | some u => [getHealthForUrl p u]
  | Option.none =>
    if p.test_urls.isEmpty then
      [⟨false, "No test URLs configured", "", 0⟩]
    else p.test_urls.map (getHealthForUrl p)

/-!
The spec's acceptance condition for a single review, stated two ways, to
compare with the validator in the code.
-/

/-- Test `v is None`. -/
def isNone : PyVal → Bool
  | PyVal.none => true
  | _ => false

/-- Acceptance condition as the claim states it: non-null `created_at`,
non-null `rating`, optional fields `None` or strings.  (Stated from the
spec's words, for comparison with `check_review_fields`.) -/
def acceptsReviewClaimed (r : Review) : Bool :=
  !isNone r.created_at && !isNone r.rating &&
  (isNone r.text || isStr r.text) && (isNone r.pros || isStr r.pros) &&
  (isNone r.cons || isStr r.cons) && (isNone r.summary || isStr r.summary)

/-- Acceptance condition amended to what the code implements: Python
truthiness in place of non-nullness (`0` and `0.0` ratings are rejected;
falsy non-string optional fields are not type-checked). -/
def acceptsReviewAmended (r : Review) : Bool :=
  truthy r.created_at && truthy r.rating &&
  (!truthy r.text || isStr r.text) && (!truthy r.pros || isStr r.pros) &&
  (!truthy r.cons || isStr r.cons) && (!truthy r.summary || isStr r.summary)

/-!
Concrete registries, providers and reviews used as explicit inputs for
counterexamples and witnesses.
-/

/-- A provider named `"z"` that matches every URL. -/
def exProviderZ : Provider :=
  { name := "z", check_url := fun _ => true,
    get_reviews := fun _ => Except.ok [] }

/-- A provider named `"a"` that matches every URL. -/
def exProviderA : Provider :=
  { name := "a", check_url := fun _ => true,
    get_reviews := fun _ => Except.ok [] }

/-- A registry mapping loaded with `"z"` before `"a"`: insertion order and
name order disagree. -/
def exMapZA : ProvMap := [("z", exProviderZ), ("a", exProviderA)]

/-- A provider that matches no URL. -/
def exProviderNone : Provider :=
  { name := "n", check_url := fun _ => false,
    get_reviews := fun _ => Except.ok [] }

/-- A registry in which no provider matches any URL. -/
def exMapNone : ProvMap := [("n", exProviderNone)]

def exReview1 : Review :=
  { rating := PyVal.num 5, created_at := PyVal.dtv ⟨2020, 1, 1, 0, 0, 0, 0⟩ }

def exReview2 : Review :=
  { rating := PyVal.num 4, created_at := PyVal.dtv ⟨2020, 1, 3, 0, 0, 0, 0⟩ }

def exReview3 : Review :=
  { rating := PyVal.num 3, created_at := PyVal.dtv ⟨2020, 1, 2, 0, 0, 0, 0⟩ }

/-- A provider whose fetch yields three reviews out of date order. -/
def exFetchProvider : Provider :=
  { name := "shop", check_url := fun _ => true,
    get_reviews := fun _ => Except.ok [exReview1, exReview2, exReview3] }

def exMapFetch : ProvMap := [("shop", exFetchProvider)]

/-- A provider with two test URLs whose fetch raises on `"bad"`. -/
def exHealthProvider : Provider :=
  { name := "w", check_url := fun _ => false,
    get_reviews := fun u =>
      if u = "bad" then Except.error (FetchErr.otherError "boom")
      else Except.ok [],
    test_urls := ["a", "b"] }

/-- A provider with no test URLs configured. -/
def exEmptyUrlsProvider : Provider :=
  { name := "e", check_url := fun _ => false,
    get_reviews := fun _ => Except.ok [] }

/-- A review with a non-null rating of `0.0`: the claimed validity
condition accepts it, the validator rejects it. -/
def cexZeroRatingReview : Review :=
  { rating := PyVal.num 0, created_at := PyVal.dtv ⟨2020, 1, 1, 0, 0, 0, 0⟩ }

/-- A well-formed review with truthy rating and a string text. -/
def exValidReview : Review :=
  { rating := PyVal.num 5,
    created_at := PyVal.dtv ⟨2020, 1, 1, 10, 0, 0, 0⟩,
    text := PyVal.str "Great product" }

/-- A representation dict whose `created_at` is an ISO string. -/
def exRepReview : Review :=
  { rating := PyVal.num 5, created_at := PyVal.str "2020-01-01T10:00:00" }

/-- An entry-point provider named `"dup"`. -/
def exEpProvider : Provider :=
  { name := "dup", check_url := fun _ => false,
    get_reviews := fun _ => Except.ok [] }

/-- A filesystem provider with the same name `"dup"`. -/
def exFsProvider : Provider :=
  { name := "dup", check_url := fun _ => true,
    get_reviews := fun _ => Except.ok [] }

/-!
Lemmas about decimal printing and parsing.
-/

theorem charToDigit_digitToChar {d : Nat} (h : d < 10) :
    charToDigit (digitToChar d) = d := by
  interval_cases d <;> rfl

theorem isDigit_digitToChar {d : Nat} (h : d < 10) :
    (digitToChar d).isDigit = true := by
  interval_cases d <;> decide

theorem ofDigits_replicate_zero (b j : ℕ) :
    Nat.ofDigits b (List.replicate j 0) = 0 := by
  induction j with
  | zero => simp
  | succ n ih => rw [List.replicate_succ, Nat.ofDigits_cons, ih]; simp

/-- Every character printed by `padNum` is a decimal digit. -/
theorem padNum_all_isDigit (k n : Nat) :
    ∀ c ∈ padNum k n, c.isDigit = true := by
  intro c hc
  unfold padNum at hc
  rw [List.mem_reverse, List.mem_map] at hc
  obtain ⟨d, hd, rfl⟩ := hc
  rw [List.mem_append] at hd
  rcases hd with hd | hd
  · exact isDigit_digitToChar (Nat.digits_lt_base (by norm_num) hd)
  · rw [List.eq_of_mem_replicate hd]
    decide

/-- Parsing inverts zero-padded printing (any requested width). -/
theorem readNum_padNum (k n : Nat) : readNum (padNum k n) = n := by
  unfold readNum padNum
  rw [List.map_reverse, List.reverse_reverse, List.map_map]
  have hmap :
      (Nat.digits 10 n ++
          List.replicate (k - (Nat.digits 10 n).length) 0).map
        (charToDigit ∘ digitToChar) =
      Nat.digits 10 n ++ List.replicate (k - (Nat.digits 10 n).length) 0 := by
    have hcongr :
        ∀ d ∈ Nat.digits 10 n ++
            List.replicate (k - (Nat.digits 10 n).length) 0,
          (charToDigit ∘ digitToChar) d = id d := by
      intro d hd
      rw [List.mem_append] at hd
      rcases hd with hd | hd
      · exact charToDigit_digitToChar (Nat.digits_lt_base (by norm_num) hd)
      · rw [List.eq_of_mem_replicate hd]
        rfl
    rw [List.map_congr_left hcongr, List.map_id]
  rw [hmap, Nat.ofDigits_append, Nat.ofDigits_digits, ofDigits_replicate_zero,
    Nat.mul_zero, Nat.add_zero]

/-- A number below `10 ^ k` prints to exactly `k` characters. -/
theorem padNum_length {k n : Nat} (h : n < 10 ^ k) :
    (padNum k n).length = k := by
  have hlen : (Nat.digits 10 n).length ≤ k := by
    rcases Nat.eq_zero_or_pos n with rfl | hn
    · simp
    · rw [Nat.digits_len 10 n (by norm_num) hn.ne']
      have := (Nat.lt_pow_iff_log_lt (by norm_num) hn.ne').mp h
      omega
  unfold padNum
  rw [List.length_reverse, List.length_map, List.length_append,
    List.length_replicate]
  omega

theorem exists_list_two {l : List Char} (h : l.length = 2) :
    ∃ a b, l = [a, b] := by
  match l, h with
  | [a, b], _ => exact ⟨a, b, rfl⟩

theorem exists_list_four {l : List Char} (h : l.length = 4) :
    ∃ a b c d, l = [a, b, c, d] := by
  match l, h with
  | [a, b, c, d], _ => exact ⟨a, b, c, d, rfl⟩

theorem exists_list_six {l : List Char} (h : l.length = 6) :
    ∃ a b c d e f, l = [a, b, c, d, e, f] := by
  match l, h with
  | [a, b, c, d, e, f], _ => exact ⟨a, b, c, d, e, f, rfl⟩

/-- Parsing with `datetime.fromisoformat` inverts `datetime.isoformat` on every valid
datetime. -/
theorem parseIso_isoformat {d : Datetime} (h : d.valid) :
    parseIsoChars (isoformat d).data = Except.ok d := by
  obtain ⟨y, mo, da, hh, mi, ss, us⟩ := d
  obtain ⟨hy1, hy2, hmo1, hmo2, hda1, hda2, hhh, hmi, hss, hus⟩ := h
  dsimp only at hy1 hy2 hmo1 hmo2 hda1 hda2 hhh hmi hss hus
  have hylt : y < 10 ^ 4 := by norm_num; omega
  have hmolt : mo < 10 ^ 2 := by norm_num; omega
  have hdalt : da < 10 ^ 2 := by norm_num; omega
  have hhhlt : hh < 10 ^ 2 := by norm_num; omega
  have hmilt : mi < 10 ^ 2 := by norm_num; omega
  have hsslt : ss < 10 ^ 2 := by norm_num; omega
  have huslt : us < 10 ^ 6 := by norm_num; omega
  obtain ⟨a1, a2, a3, a4, hA⟩ := exists_list_four (padNum_length hylt)
  obtain ⟨b1, b2, hB⟩ := exists_list_two (padNum_length hmolt)
  obtain ⟨c1, c2, hC⟩ := exists_list_two (padNum_length hdalt)
  obtain ⟨e1, e2, hE⟩ := exists_list_two (padNum_length hhhlt)
  obtain ⟨f1, f2, hF⟩ := exists_list_two (padNum_length hmilt)
  obtain ⟨g1, g2, hG⟩ := exists_list_two (padNum_length hsslt)
  have dA := hA ▸ padNum_all_isDigit 4 y
  have dB := hB ▸ padNum_all_isDigit 2 mo
  have dC := hC ▸ padNum_all_isDigit 2 da
  have dE := hE ▸ padNum_all_isDigit 2 hh
  have dF := hF ▸ padNum_all_isDigit 2 mi
  have dG := hG ▸ padNum_all_isDigit 2 ss
  have rA : readNum [a1, a2, a3, a4] = y := by
    rw [← hA]; exact readNum_padNum 4 y
  have rB : readNum [b1, b2] = mo := by rw [← hB]; exact readNum_padNum 2 mo
  have rC : readNum [c1, c2] = da := by rw [← hC]; exact readNum_padNum 2 da
  have rE : readNum [e1, e2] = hh := by rw [← hE]; exact readNum_padNum 2 hh
  have rF : readNum [f1, f2] = mi := by rw [← hF]; exact readNum_padNum 2 mi
  have rG : readNum [g1, g2] = ss := by rw [← hG]; exact readNum_padNum 2 ss
  have hall :
      ([a1, a2, a3, a4, b1, b2, c1, c2, e1, e2, f1, f2, g1, g2].all
        Char.isDigit) = true := by
    rw [List.all_eq_true]
    intro c hc
    simp only [List.mem_cons, List.not_mem_nil, or_false] at hc
    rcases hc with rfl | rfl | rfl | rfl | rfl | rfl | rfl | rfl | rfl |
        rfl | rfl | rfl | rfl | rfl
    · exact dA _ (by simp)
    · exact dA _ (by simp)
    · exact dA _ (by simp)
    · exact dA _ (by simp)
    · exact dB _ (by simp)
    · exact dB _ (by simp)
    · exact dC _ (by simp)
    · exact dC _ (by simp)
    · exact dE _ (by simp)
    · exact dE _ (by simp)
    · exact dF _ (by simp)
    · exact dF _ (by simp)
    · exact dG _ (by simp)
    · exact dG _ (by simp)
  by_cases h0 : us = 0
  · have hdata : (isoformat ⟨y, mo, da, hh, mi, ss, us⟩).data =
        a1 :: a2 :: a3 :: a4 :: '-' :: b1 :: b2 :: '-' :: c1 :: c2 :: 'T' ::
          e1 :: e2 :: ':' :: f1 :: f2 :: ':' :: g1 :: g2 :: [] := by
      show padNum 4 y ++ '-' :: padNum 2 mo ++ '-' :: padNum 2 da ++
          'T' :: padNum 2 hh ++ ':' :: padNum 2 mi ++ ':' :: padNum 2 ss ++
          (if us = 0 then [] else '.' :: padNum 6 us) =
        _
      rw [hA, hB, hC, hE, hF, hG, if_pos h0]
      simp only [List.cons_append, List.nil_append, List.append_nil]
    rw [hdata]
    simp only [parseIsoChars]
    rw [if_pos (by simp [hall])]
    rw [rA, rB, rC, rE, rF, rG, h0]
  · obtain ⟨u1, u2, u3, u4, u5, u6, hU⟩ :=
      exists_list_six (padNum_length huslt)
    have dU := hU ▸ padNum_all_isDigit 6 us
    have rU : readNum [u1, u2, u3, u4, u5, u6] = us := by
      rw [← hU]; exact readNum_padNum 6 us
    have hallU : ([u1, u2, u3, u4, u5, u6].all Char.isDigit) = true := by
      rw [List.all_eq_true]
      intro c hc
      simp only [List.mem_cons, List.not_mem_nil, or_false] at hc
      rcases hc with rfl | rfl | rfl | rfl | rfl | rfl
      · exact dU _ (by simp)
      · exact dU _ (by simp)
      · exact dU _ (by simp)
      · exact dU _ (by simp)
      · exact dU _ (by simp)
      · exact dU _ (by simp)
    have hdata : (isoformat ⟨y, mo, da, hh, mi, ss, us⟩).data =
        a1 :: a2 :: a3 :: a4 :: '-' :: b1 :: b2 :: '-' :: c1 :: c2 :: 'T' ::
          e1 :: e2 :: ':' :: f1 :: f2 :: ':' :: g1 :: g2 ::
          ('.' :: u1 :: u2 :: u3 :: u4 :: u5 :: u6 :: []) := by
      show padNum 4 y ++ '-' :: padNum 2 mo ++ '-' :: padNum 2 da ++
          'T' :: padNum 2 hh ++ ':' :: padNum 2 mi ++ ':' :: padNum 2 ss ++
          (if us = 0 then [] else '.' :: padNum 6 us) =
        _
      rw [hA, hB, hC, hE, hF, hG, if_neg h0, hU]
      simp only [List.cons_append, List.nil_append, List.append_nil]
    rw [hdata]
    simp only [parseIsoChars]
    rw [if_pos (by simp [hall])]
    rw [if_pos (by simp [hallU])]
    rw [rA, rB, rC, rE, rF, rG, rU]

/-!
Stability of the embedded sorts.  Python's `list.sort`/`sorted` are stable;
`List.insertionSort` is the same stable sort.  The filter formulation below
is how stability is observed: the subsequence of elements tied under the
sort relation keeps its original order.
-/

theorem filter_insertionSort_eq {α : Type} (r : α → α → Prop) [DecidableRel r]
    (p : α → Bool) (l : List α)
    (hp : ∀ a b, p a = true → p b = true → r a b) :
    (List.insertionSort r l).filter p = l.filter p := by
  have hc : List.Sublist (l.filter p) (List.insertionSort r l) := by
    apply List.sublist_insertionSort
    · exact List.pairwise_of_forall_mem_list
        (fun a ha b hb => hp a b (List.of_mem_filter ha) (List.of_mem_filter hb))
    · exact List.filter_sublist l
  have hperm : List.Perm ((List.insertionSort r l).filter p) (l.filter p) :=
    (List.perm_insertionSort r l).filter p
  have hself : (l.filter p).filter p = l.filter p :=
    List.filter_eq_self.mpr (fun a ha => List.of_mem_filter ha)
  have hc2 : List.Sublist (l.filter p) ((List.insertionSort r l).filter p) := by
    have := hc.filter p
    rwa [hself] at this
  exact (hc2.eq_of_length hperm.length_eq.symm).symm

/-- The `_check_matched_provider` loop is first-match search. -/
theorem matchScan_eq_find? (url : String) (l : List Provider) :
    matchScan url l = l.find? (fun p => p.check_url url) := by
  induction l with
  | nil => rfl
  | cons p ps ih =>
    cases hc : p.check_url url <;>
      simp [matchScan, List.find?_cons, hc, ih]

/-- The `Registry.get_provider_for_url` loop is first-match search; when
nothing matches it raises `ProviderLoadError` with the URL in the
message. -/
theorem registryScan_eq_find? (url : String) (l : List Provider) :
    registryScan url l =
      (match l.find? (fun p => p.check_url url) with
        | some p => Except.ok p
        | Option.none =>
          Except.error ("No provider found for URL: " ++ url)) := by
  induction l with
  | nil => rfl
  | cons p ps ih =>
    cases hc : p.check_url url <;>
      simp [registryScan, List.find?_cons, hc, ih]

/-!
Python-dict lemmas: the registry mapping under insertion and lookup.
-/

theorem getLast?_cons_or {α : Type} (a : α) (l : List α) :
    (a :: l).getLast? = l.getLast?.or (some a) := by
  cases l with
  | nil => rfl
  | cons b t =>
    rw [List.getLast?_cons_cons]
    cases hg : (b :: t).getLast? with
    | none => simp [List.getLast?_eq_none_iff] at hg
    | some q => simp [hg]

/-- After an in-place update of key `k'`, looking up a different key is
unchanged. -/
theorem find?_map_update_ne (t : ProvMap) (k k' : String) (v : Provider)
    (hkk : k ≠ k') :
    (t.map (fun e => if e.1 == k' then (k', v) else e)).find?
        (fun e => e.1 == k) =
      t.find? (fun e => e.1 == k) := by
  induction t with
  | nil => rfl
  | cons e t ih =>
    cases he : e.1 == k'
    · rw [List.map_cons, if_neg (by simp [he])]
      cases hek : e.1 == k
      · rw [List.find?_cons_of_neg _ (by simp [hek]),
          List.find?_cons_of_neg _ (by simp [hek]), ih]
      · rw [List.find?_cons_of_pos _ (by simp [hek]),
          List.find?_cons_of_pos _ (by simp [hek])]
    · rw [List.map_cons, if_pos (by simpa using he)]
      have he' : e.1 = k' := by simpa using he
      rw [List.find?_cons_of_neg _ (by simp [Ne.symm hkk]),
        List.find?_cons_of_neg _ (by simp [he', Ne.symm hkk]), ih]

/-- After an in-place update of key `k'` (present in the dict), looking up
`k'` finds the new value. -/
theorem find?_map_update_eq (t : ProvMap) (k' : String) (v : Provider)
    (hany : t.any (fun e => e.1 == k') = true) :
    (t.map (fun e => if e.1 == k' then (k', v) else e)).find?
        (fun e => e.1 == k') = some (k', v) := by
  induction t with
  | nil => simp at hany
  | cons e t ih =>
    cases he : e.1 == k'
    · rw [List.map_cons, if_neg (by simp [he])]
      rw [List.find?_cons_of_neg _ (by simp [he])]
      exact ih (by simpa [he] using hany)
    · rw [List.map_cons, if_pos (by simpa using he)]
      rw [List.find?_cons_of_pos _ (by simp)]

/-- Python dict semantics: `d[k'] = v` then `d[k]` is `v` when `k = k'`
and the old binding otherwise. -/
theorem dictLookup_dictInsert (m : ProvMap) (k k' : String) (v : Provider) :
    dictLookup (dictInsert m k' v) k =
      if k = k' then some v else dictLookup m k := by
  unfold dictInsert dictLookup
  by_cases hany : m.any (fun e => e.1 == k') = true
  · rw [if_pos hany]
    by_cases hkk : k = k'
    · subst hkk
      rw [if_pos rfl, find?_map_update_eq m k v hany]
      rfl
    · rw [if_neg hkk, find?_map_update_ne m k k' v hkk]
  · rw [if_neg hany]
    rw [List.find?_append]
    by_cases hkk : k = k'
    · subst hkk
      have hnone : m.find? (fun e => e.1 == k) = Option.none := by
        rw [List.find?_eq_none]
        intro x hx hpx
        exact hany (List.any_eq_true.mpr ⟨x, hx, hpx⟩)
      rw [if_pos rfl, hnone]
      simp
    · have hone : ([(k', v)].find? (fun e => e.1 == k)) = Option.none := by
        simp [Ne.symm hkk]
      rw [if_neg hkk, hone]
      simp

/-- Folding dict insertions: lookup returns the last binding written for
the key, falling back to the initial dict. -/
theorem dictLookup_foldl_insert (l : List Provider) (m : ProvMap)
    (n : String) :
    dictLookup (l.foldl (fun m p => dictInsert m p.name p) m) n =
      ((l.filter (fun p => p.name == n)).getLast?).or (dictLookup m n) := by
  induction l generalizing m with
  | nil => simp
  | cons p t ih =>
    rw [List.foldl_cons, ih, dictLookup_dictInsert]
    cases hpn : p.name == n
    · have hne : n ≠ p.name := fun h => by simp [h] at hpn
      rw [List.filter_cons_of_neg (by simp [hpn]), if_neg hne]
    · have heq : n = p.name := by
        have := (beq_iff_eq (a := p.name) (b := n)).mp hpn
        exact this.symm
      rw [List.filter_cons_of_pos (by simp [hpn]), if_pos heq,
        getLast?_cons_or, Option.or_assoc, Option.or_some]

/-- When all names are distinct, folding dict insertions appends the
bindings in iteration order. -/
theorem foldl_insert_of_nodup (l : List Provider) (m : ProvMap)
    (h : (m.map Prod.fst ++ l.map Provider.name).Nodup) :
    l.foldl (fun m p => dictInsert m p.name p) m =
      m ++ l.map (fun p => (p.name, p)) := by
  induction l generalizing m with
  | nil => simp
  | cons p t ih =>
    have hdisj : ∀ x ∈ m.map Prod.fst, x ∉ (p :: t).map Provider.name :=
      fun x hx => (List.nodup_append.mp h).2.2 hx
    have hany : m.any (fun e => e.1 == p.name) = false := by
      rw [List.any_eq_false]
      intro e he hpe
      have he1 : e.1 = p.name := by simpa using hpe
      exact hdisj e.1 (List.mem_map_of_mem Prod.fst he) (by
        rw [he1, List.map_cons]
        exact List.mem_cons_self _ _)
    have hins : dictInsert m p.name p = m ++ [(p.name, p)] := by
      unfold dictInsert
      rw [if_neg (by simp [hany])]
    rw [List.foldl_cons, hins,
      ih (m ++ [(p.name, p)]) (by simpa [List.append_assoc] using h)]
    simp [List.append_assoc]

/-- Reviews tied on a concrete `created_at` datetime have equal sort
keys. -/
theorem createdKey_of_createdEq {r : Review} {d : Datetime}
    (h : createdEq r d = true) : createdKey r = (d.lexKey : WithBot _) := by
  unfold createdEq at h
  unfold createdKey
  cases hc : r.created_at with
  | dtv d' =>
    rw [hc] at h
    have : d' = d := by simpa using h
    rw [this]
  | none => rw [hc] at h; simp at h
  | str s => rw [hc] at h; simp at h
  | num q => rw [hc] at h; simp at h
  | listv l => rw [hc] at h; simp at h

/-- C1.  For every URL matched by some registered provider whose fetch
succeeds with reviews whose `created_at` are datetimes, `parse_reviews`
returns exactly the fetched reviews sorted stably by `created_at`
descending (ties keep fetch order), wrapped in a `ProviderReviewList`
whose `provider` is the matched provider's declared name and whose
reviews are the same multiset as fetched. -/
theorem parse_reviews_sorted_wrapped (m : ProvMap) (url : String)
    (p : Provider) (revs : List Review)
    (hp : checkMatchedProvider m url = some p)
    (hr : p.get_reviews url = Except.ok revs)
    (hdt : ∀ r ∈ revs, ∃ d, r.created_at = PyVal.dtv d) :
    parseReviews m url = Except.ok ⟨p.name, sortReviewsDesc revs⟩ ∧
    List.Sorted reviewDescRel (sortReviewsDesc revs) ∧
    List.Perm (sortReviewsDesc revs) revs ∧
    ∀ d : Datetime,
      (sortReviewsDesc revs).filter (fun r => createdEq r d) =
        revs.filter (fun r => createdEq r d) := by
  refine ⟨?_, ?_, ?_, ?_⟩
  · simp only [parseReviews, hp, hr]
  · exact List.sorted_insertionSort reviewDescRel revs
  · exact List.perm_insertionSort reviewDescRel revs
  · intro d
    apply filter_insertionSort_eq
    intro a b ha hb
    show createdKey b ≤ createdKey a
    rw [createdKey_of_createdEq ha, createdKey_of_createdEq hb]

/-- Witness for C1 at a concrete registry: three reviews dated
2020-01-01, 2020-01-03, 2020-01-02 come back in the order
2020-01-03, 2020-01-02, 2020-01-01. -/
theorem parse_reviews_sorted_wrapped_witness :
    parseReviews exMapFetch "u" =
      Except.ok ⟨"shop", sortReviewsDesc [exReview1, exReview2, exReview3]⟩ ∧
    sortReviewsDesc [exReview1, exReview2, exReview3] =
      [exReview2, exReview3, exReview1] := by
  constructor
  · exact (parse_reviews_sorted_wrapped exMapFetch "u" exFetchProvider
      [exReview1, exReview2, exReview3] rfl rfl (by
        intro r hr
        simp only [List.mem_cons, List.not_mem_nil, or_false] at hr
        rcases hr with rfl | rfl | rfl
        · exact ⟨_, rfl⟩
        · exact ⟨_, rfl⟩
        · exact ⟨_, rfl⟩)).1
  · simp +decide [sortReviewsDesc, List.insertionSort, List.orderedInsert,
      reviewDescRel, createdKey, exReview1, exReview2, exReview3,
      Datetime.lexKey]

/-- C2, counterexample.  With providers loaded in the order `"z"`, `"a"`
(both matching), the dispatch resolution (`_check_matched_provider`, which
scans the name-sorted `list_providers()`) selects `"a"` while
`Registry.get_provider_for_url` (insertion-order scan) selects `"z"`: they
do not select the same provider. -/
theorem dispatch_scan_order_counterexample :
    checkMatchedProvider exMapZA "u" = some exProviderA ∧
    registryGetProviderForUrl exMapZA "u" = Except.ok exProviderZ ∧
    exProviderA.name ≠ exProviderZ.name := by
  refine ⟨?_, rfl, by decide⟩
  simp +decide [checkMatchedProvider, listProviders, dictValues, exMapZA,
    List.insertionSort, List.orderedInsert, providerNameRel,
    exProviderZ, exProviderA, matchScan]

/-- C2, amended.  `parse_reviews` resolves its provider by scanning the
name-sorted `list_providers()` (not the registry's insertion-order scan):
it returns the first match of that sorted enumeration of the registered
providers; and when no registered provider's `check_url` accepts the URL
it raises the no-matched-provider condition carrying the URL. -/
theorem dispatch_resolves_name_sorted_first_match (m : ProvMap)
    (url : String) :
    checkMatchedProvider m url =
      (listProviders m).find? (fun p => p.check_url url) ∧
    List.Sorted providerNameRel (listProviders m) ∧
    List.Perm (listProviders m) (dictValues m) ∧
    (checkMatchedProvider m url = Option.none →
      parseReviews m url = Except.error (ParseError.noMatched
        ("No matched providers for \"" ++ url ++ "\""))) := by
  refine ⟨matchScan_eq_find? url (listProviders m),
    List.sorted_insertionSort providerNameRel (dictValues m),
    List.perm_insertionSort providerNameRel (dictValues m), ?_⟩
  intro hnone
  simp only [parseReviews, hnone]

/-- Witness for C2's amended claim at a registry with no matching
provider. -/
theorem dispatch_resolves_name_sorted_first_match_witness :
    parseReviews exMapNone "https://unknown.example/x" =
      Except.error (ParseError.noMatched
        ("No matched providers for \"https://unknown.example/x\"")) :=
  (dispatch_resolves_name_sorted_first_match exMapNone
    "https://unknown.example/x").2.2.2 rfl

/-- C3.  `Registry.get_provider_for_url` scans the cached mapping's values
in insertion order and returns the first provider whose `check_url`
succeeds; when none matches it raises the load error whose message carries
the URL. -/
theorem registry_get_provider_for_url_insertion_order (m : ProvMap)
    (url : String) :
    registryGetProviderForUrl m url =
      (match (dictValues m).find? (fun p => p.check_url url) with
        | some p => Except.ok p
        | Option.none =>
          Except.error ("No provider found for URL: " ++ url)) :=
  registryScan_eq_find? url (dictValues m)

/-- C9.  `ProductReviewsService.get_provider_for_url` is total: it returns
the registry's first insertion-order match as `some`, and `None` (rather
than propagating the registry's `ProviderLoadError`) whenever the lookup
fails. -/
theorem service_get_provider_for_url_total (m : ProvMap) (url : String) :
    serviceGetProviderForUrl m url =
      (dictValues m).find? (fun p => p.check_url url) := by
  cases hf : (dictValues m).find? (fun p => p.check_url url) <;>
    simp [serviceGetProviderForUrl, registryGetProviderForUrl,
      registryScan_eq_find?, hf]

/-- C4.  From a fresh `Registry`, `list_providers()` runs the loader merge
exactly once; a second call without `clear_cache()` returns the identical
result and does not run the loaders again; after `clear_cache()` the next
query runs the loader merge once more. -/
theorem registry_cache_idempotent_and_clear (env : ProvMap) :
    (listProvidersSt env ⟨Option.none⟩).2.2 = 1 ∧
    (listProvidersSt env (listProvidersSt env ⟨Option.none⟩).2.1).1 =
      (listProvidersSt env ⟨Option.none⟩).1 ∧
    (listProvidersSt env (listProvidersSt env ⟨Option.none⟩).2.1).2.2 = 0 ∧
    (listProvidersSt env (clearCache
        (listProvidersSt env
          (listProvidersSt env ⟨Option.none⟩).2.1).2.1)).2.2 = 1 :=
  ⟨rfl, rfl, rfl, rfl⟩

/-- C5, counterexample.  The review with rating `0.0` (non-null) and a
non-null datetime `created_at` satisfies the claimed acceptance condition,
yet `check_review_fields` rejects it: the validator tests truthiness, not
non-nullness. -/
theorem validator_zero_rating_counterexample :
    acceptsReviewClaimed cexZeroRatingReview = true ∧
    check_review_fields cexZeroRatingReview =
      Except.error "Review rating is required" := by
  constructor
  · rfl
  · simp +decide [check_review_fields, cexZeroRatingReview, truthy]

/-- C5, amended.  The validator accepts a review exactly when
`created_at` and `rating` are truthy and every truthy optional field
(`text`, `pros`, `cons`, `summary`) is a string. -/
theorem validator_accepts_iff_truthy (r : Review) :
    check_review_fields r = Except.ok () ↔ acceptsReviewAmended r = true := by
  unfold check_review_fields acceptsReviewAmended
  split_ifs with h1 h2 h3 h4 h5 h6 <;>
    simp_all [Bool.and_eq_true, Bool.or_eq_true, Bool.not_eq_true]
  refine ⟨⟨⟨?_, ?_⟩, ?_⟩, ?_⟩
  · cases ht : truthy r.text
    · exact Or.inl rfl
    · exact Or.inr (h3 ht)
  · cases ht : truthy r.pros
    · exact Or.inl rfl
    · exact Or.inr (h4 ht)
  · cases ht : truthy r.cons
    · exact Or.inl rfl
    · exact Or.inr (h5 ht)
  · cases ht : truthy r.summary
    · exact Or.inl rfl
    · exact Or.inr (h6 ht)

/-- Witness for C5's amended claim: a review with truthy rating,
datetime `created_at` and a string `text` is accepted. -/
theorem validator_accepts_iff_truthy_witness :
    check_review_fields exValidReview = Except.ok () ∧
    acceptsReviewAmended exValidReview = true :=
  ⟨(validator_accepts_iff_truthy exValidReview).mpr (by decide),
    by decide⟩

/-- C6.  `check_health` produces exactly one result for a specific URL;
one result per `test_urls` entry in list order otherwise; a single
"No test URLs configured" unhealthy result when that list is empty; and
every fetch exception is captured as an unhealthy result (with the
exception's message) instead of propagating. -/
theorem check_health_shape_and_capture :
    (∀ (p : Provider) (u : String),
      check_health p (some u) = [getHealthForUrl p u]) ∧
    (∀ p : Provider, p.test_urls = [] →
      check_health p Option.none =
        [⟨false, "No test URLs configured", "", 0⟩]) ∧
    (∀ p : Provider, p.test_urls ≠ [] →
      check_health p Option.none = p.test_urls.map (getHealthForUrl p)) ∧
    (∀ (p : Provider) (u : String) (e : FetchErr),
      p.get_reviews u = Except.error e →
      getHealthForUrl p u =
        ⟨false, "Error fetching reviews: " ++ e.str, u, 0⟩) := by
  refine ⟨fun p u => rfl, ?_, ?_, ?_⟩
  · intro p h
    simp [check_health, h]
  · intro p h
    simp [check_health, List.isEmpty_iff, h]
  · intro p u e h
    simp [getHealthForUrl, h]

/-- Witness for C6 at concrete providers: two test URLs give two results,
an empty list gives the fixed unhealthy result, and a fetch exception
(`"boom"`) is captured. -/
theorem check_health_shape_and_capture_witness :
    check_health exHealthProvider (some "x") =
      [getHealthForUrl exHealthProvider "x"] ∧
    check_health exEmptyUrlsProvider Option.none =
      [⟨false, "No test URLs configured", "", 0⟩] ∧
    check_health exHealthProvider Option.none =
      ["a", "b"].map (getHealthForUrl exHealthProvider) ∧
    getHealthForUrl exHealthProvider "bad" =
      ⟨false, "Error fetching reviews: boom", "bad", 0⟩ :=
  ⟨check_health_shape_and_capture.1 exHealthProvider "x",
    check_health_shape_and_capture.2.1 exEmptyUrlsProvider rfl,
    check_health_shape_and_capture.2.2.1 exHealthProvider (by
      intro h
      simp [exHealthProvider] at h),
    check_health_shape_and_capture.2.2.2 exHealthProvider "bad"
      (FetchErr.otherError "boom") (by simp [exHealthProvider])⟩

/-- C7.  For every review whose `created_at` is a valid datetime,
`from_representation ∘ to_representation` reproduces the review exactly:
the rating and the optional string fields pass through unchanged, and the
`created_at` timestamp survives ISO-8601 serialization and re-parsing. -/
theorem review_representation_roundtrip (r : Review) (d : Datetime)
    (hc : r.created_at = PyVal.dtv d) (hv : d.valid) :
    ∃ rep, r.to_representation = Except.ok rep ∧
      (rep.from_representation).2 = Except.ok r := by
  refine ⟨{ r with created_at := PyVal.str (isoformat d) }, ?_, ?_⟩
  · unfold Review.to_representation
    rw [hc]
  · unfold Review.from_representation fromisoformatVal
    dsimp only
    rw [parseIso_isoformat hv]
    dsimp only
    rw [show (PyVal.dtv d) = r.created_at from hc.symm]

/-- Witness for C7 at a concrete valid review. -/
theorem review_representation_roundtrip_witness :
    ∃ rep, exValidReview.to_representation = Except.ok rep ∧
      (rep.from_representation).2 = Except.ok exValidReview :=
  review_representation_roundtrip exValidReview ⟨2020, 1, 1, 10, 0, 0, 0⟩
    rfl (by decide)

/-- C8.  The merged provider map iterates all entry-point providers and
then all filesystem providers into a name-keyed dict with last-write-wins
and no duplicate detection: every name is bound to the last provider of
that name in the combined enumeration (so a filesystem provider always
overrides an entry-point provider of the same name), and when all names
are distinct the map enumerates all entry-point providers first, then all
filesystem providers. -/
theorem load_all_providers_map_merge (ep fs : List Provider) :
    (∀ n, dictLookup (loadAllProvidersMap ep fs) n =
      ((ep ++ fs).filter (fun p => p.name == n)).getLast?) ∧
    (((ep ++ fs).map Provider.name).Nodup →
      loadAllProvidersMap ep fs = (ep ++ fs).map (fun p => (p.name, p))) := by
  constructor
  · intro n
    unfold loadAllProvidersMap
    rw [dictLookup_foldl_insert]
    simp [dictLookup]
  · intro h
    have := foldl_insert_of_nodup (ep ++ fs) [] (by simpa using h)
    simpa [loadAllProvidersMap] using this

/-- Witness for C8: a filesystem provider overrides the entry-point
provider of the same name `"dup"`; with distinct names the merged map
lists entry-point bindings before filesystem bindings. -/
theorem load_all_providers_map_merge_witness :
    dictLookup (loadAllProvidersMap [exEpProvider] [exFsProvider]) "dup" =
      some exFsProvider ∧
    loadAllProvidersMap [exProviderZ] [exProviderA] =
      [("z", exProviderZ), ("a", exProviderA)] := by
  constructor
  · rw [(load_all_providers_map_merge [exEpProvider] [exFsProvider]).1 "dup"]
    rfl
  · rw [(load_all_providers_map_merge [exProviderZ] [exProviderA]).2
      (by decide)]
    rfl

/-- C10.  `Review.from_representation` mutates its argument: when the
dict's `created_at` holds a parseable ISO string, after the call the
dict's `created_at` has been replaced in place by the parsed datetime (so
the caller's dict is changed), and calling `from_representation` on that
same dict a second time raises `TypeError` inside `fromisoformat`. -/
theorem from_representation_mutates_argument (r : Review) (s : String)
    (d : Datetime) (hc : r.created_at = PyVal.str s)
    (hp : parseIsoChars s.data = Except.ok d) :
    (r.from_representation).1 = { r with created_at := PyVal.dtv d } ∧
    (r.from_representation).1.created_at ≠ r.created_at ∧
    ((r.from_representation).1).from_representation =
      ((r.from_representation).1,
        Except.error "TypeError: fromisoformat: argument must be str") := by
  have h1 : r.from_representation =
      ({ r with created_at := PyVal.dtv d },
        Except.ok { r with created_at := PyVal.dtv d }) := by
    unfold Review.from_representation fromisoformatVal
    rw [hc]
    dsimp only
    rw [hp]
  refine ⟨by rw [h1], ?_, ?_⟩
  · rw [h1, hc]
    simp
  · rw [h1]
    rfl

/-- Witness for C10 at a concrete representation dict. -/
theorem from_representation_mutates_argument_witness :
    (exRepReview.from_representation).1 =
      { exRepReview with
          created_at := PyVal.dtv ⟨2020, 1, 1, 10, 0, 0, 0⟩ } ∧
    (exRepReview.from_representation).1.created_at ≠
      exRepReview.created_at ∧
    ((exRepReview.from_representation).1).from_representation =
      ((exRepReview.from_representation).1,
        Except.error "TypeError: fromisoformat: argument must be str") :=
  from_representation_mutates_argument exRepReview "2020-01-01T10:00:00"
    ⟨2020, 1, 1, 10, 0, 0, 0⟩ rfl (by rfl)
